import Mathlib

/-!
Shallow embedding of the DHT11 driver in `src/components/dht11/dht11.c`
(bit-banged single-wire sensor protocol).

Modelling conventions:
* The simulated line is a function `line : ℕ → Bool` giving the level that
  `gpio_get_level` returns at machine time `t` (microseconds); `true` is the
  C level `1`.
* The machine state `Dht11` carries the clock `t`, the GPIO configuration
  (`mode`, `level`) and the two committed reading fields of `dht11_t`
  (`humidity`, `temperature`).  The C `float` fields are modelled as `ℚ`;
  every value produced by the driver is of the form `b + b'/10` with
  `b, b' < 256`, for which the `ℚ` comparisons against `100` and `50`
  agree with the C double comparisons.
* `ets_delay_us(n)` advances the clock by `n`; polling `gpio_get_level`
  itself takes no time, exactly as in the C busy-wait loops.
* Every C loop is written as structural recursion on a `remaining` fuel
  that equals (loop bound - loop counter); the side-by-side counter keeps
  the C comparisons visible (`remaining = 0` iff `count ≥ timeout`, etc.).
-/

inductive GpioMode where
  | inputMode
  | outputOD
  | inputOutputOD
deriving DecidableEq, Repr

inductive EspErr where
  | espOk
  | espErrTimeout
  | espErrInvalidCrc
  | espErrInvalidResponse
deriving DecidableEq, Repr

/-- Machine state: clock (µs), GPIO config, and the `dht11_t` reading fields. -/
structure Dht11 where
  t : ℕ
  mode : GpioMode
  level : Bool
  humidity : ℚ
  temperature : ℚ
deriving DecidableEq, Repr

/-- Model of `ets_delay_us(n)`: advance the clock. -/
def delayUs (s : Dht11) (n : ℕ) : Dht11 := { s with t := s.t + n }

/-- Model of `gpio_set_level(pin, l)`. -/
def setLevel (s : Dht11) (l : Bool) : Dht11 := { s with level := l }

/-- Model of `gpio_set_direction(pin, m)`. -/
def setDir (s : Dht11) (m : GpioMode) : Dht11 := { s with mode := m }

/-- The recurring cleanup pair of dht11.c (lines 109-110, 139-140, 151-152,
172-173, 180-181): `gpio_set_direction(pin, GPIO_MODE_OUTPUT_OD);
gpio_set_level(pin, 1);`. -/
def pinIdle (s : Dht11) : Dht11 := setLevel (setDir s .outputOD) true

/-- Loop body of `wait_for_state` (dht11.c lines 51-58):
`while (gpio_get_level != state) { if (count >= timeout) return -1; count++;
ets_delay_us(1); }`.  `remaining = timeout - count`, so `remaining = 0` is
exactly the C test `count >= timeout`. -/
def waitGo (line : ℕ → Bool) (state : Bool) : ℕ → ℕ → Dht11 → Option ℕ × Dht11
  | remaining, count, s =>
    if line s.t = state then (some count, s)
    else
      match remaining with
      | 0 => (none, s)
      | r + 1 => waitGo line state r (count + 1) (delayUs s 1)

/-- Model of `wait_for_state(dht11, state, timeout)` (dht11.c lines 49-60):
returns the waited count, or `none` in place of the C sentinel `-1`. -/
def wait_for_state (line : ℕ → Bool) (state : Bool) (timeout : ℕ) (s : Dht11) :
    Option ℕ × Dht11 :=
  waitGo line state timeout 0 s

/-- Model of `hold_low(dht11, hold_time_us)` (dht11.c lines 67-76):
drive low, wait `hold_time_us`, release high, wait 40 µs. -/
def hold_low (s : Dht11) (holdTime : ℕ) : Dht11 :=
  delayUs (setLevel (delayUs (setLevel s false) holdTime) true) 40

/-- The retry path of a failed handshake phase (dht11.c lines 109-111 etc.):
revert to open-drain output, force high, wait 200 ms. -/
def retryReset (s : Dht11) : Dht11 :=
  delayUs (setLevel (setDir s .outputOD) true) 200000

/-- The handshake retry loop of `dht11_read` (dht11.c lines 95-135).
`remaining = connection_timeout - timeout_counter`, so `remaining = 0` is the
C loop exit `timeout_counter < connection_timeout` failing; the returned
`Bool` records whether the loop exited through the `break` at line 134
(all three transitions observed), the `ℕ` is the final `timeout_counter`. -/
def handshakeGo (line : ℕ → Bool) : ℕ → ℕ → Dht11 → Bool × ℕ × Dht11
  | 0, counter, s => (false, counter, s)
  | r + 1, counter, s =>
    let c := counter + 1
    let s1 := setDir (hold_low s 18000) .inputMode
    let w1 := wait_for_state line false 100 s1
    if w1.1 = none then handshakeGo line r c (retryReset w1.2)
    else
      let w2 := wait_for_state line true 100 w1.2
      if w2.1 = none then handshakeGo line r c (retryReset w2.2)
      else
        let w3 := wait_for_state line false 100 w2.2
        if w3.1 = none then handshakeGo line r c (retryReset w3.2)
        else (true, c, w3.2)

/-- The inline high-pulse measurement loop of `dht11_read` (lines 157-161):
`while (gpio_get_level == 1 && high_time < 100) { high_time++;
ets_delay_us(1); }`.  `remaining = 100 - high_time`. -/
def measureGo (line : ℕ → Bool) : ℕ → ℕ → Dht11 → ℕ × Dht11
  | 0, highTime, s => (highTime, s)
  | r + 1, highTime, s =>
    if line s.t = true then measureGo line r (highTime + 1) (delayUs s 1)
    else (highTime, s)

/-- The high-pulse measurement starting from `high_time = 0`. -/
def measureHigh (line : ℕ → Bool) (s : Dht11) : ℕ × Dht11 := measureGo line 100 0 s

/-- One iteration of the inner bit loop of `dht11_read` (lines 146-176) at bit
index `j` of the current byte: wait for the rise (70 µs, fatal on timeout),
measure the high pulse, set bit `7 - j` if it lasted more than 35 µs, then
wait for the fall (70 µs; on timeout fatal only when `j < 7`). -/
def bitStep (line : ℕ → Bool) (j byte : ℕ) (s : Dht11) : Option ℕ × Dht11 :=
  let w1 := wait_for_state line true 70 s
  match w1.1 with
  | none => (none, pinIdle w1.2)
  | some _ =>
    let m := measureHigh line w1.2
    let byte2 := if 35 < m.1 then byte ||| (1 <<< (7 - j)) else byte
    let w2 := wait_for_state line false 70 m.2
    match w2.1 with
    | none => if j < 7 then (none, pinIdle w2.2) else (some byte2, w2.2)
    | some _ => (some byte2, w2.2)

/-- The inner `for (j = 0; j < 8; j++)` loop of `dht11_read` accumulating one
byte of `received_data`; `remaining = 8 - j`. -/
def readByteGo (line : ℕ → Bool) : ℕ → ℕ → ℕ → Dht11 → Option ℕ × Dht11
  | 0, _, byte, s => (some byte, s)
  | r + 1, j, byte, s =>
    let b := bitStep line j byte s
    match b.1 with
    | none => (none, b.2)
    | some v => readByteGo line r (j + 1) v b.2

/-- The outer `for (i = 0; i < 5; i++)` loop of `dht11_read` (lines 145-177)
collecting `received_data`; `remaining = 5 - i`.  Each byte of the C array
starts at 0 and is only touched by its own inner loop, so per-byte
accumulation is equivalent to the in-place array. -/
def readDataGo (line : ℕ → Bool) : ℕ → List ℕ → Dht11 → Option (List ℕ) × Dht11
  | 0, acc, s => (some acc, s)
  | r + 1, acc, s =>
    let b := readByteGo line 8 0 0 s
    match b.1 with
    | none => (none, b.2)
    | some v => readDataGo line r (acc ++ [v]) b.2

/-- The checksum / commit / range-check tail of `dht11_read` (lines 186-202).
`crc` is the `uint8_t` sum, hence `% 256`.  Note the C code stores the
decoded values into the struct *before* the range check. -/
def dht11_commit (data : List ℕ) (s : Dht11) : EspErr × Dht11 :=
  let crc := (data.getD 0 0 + data.getD 1 0 + data.getD 2 0 + data.getD 3 0) % 256
  if crc = data.getD 4 0 then
    let s1 := { s with
      humidity := (data.getD 0 0 : ℚ) + (data.getD 1 0 : ℚ) / 10,
      temperature := (data.getD 2 0 : ℚ) + (data.getD 3 0 : ℚ) / 10 }
    if 100 < s1.humidity ∨ 50 < s1.temperature then (.espErrInvalidResponse, s1)
    else (.espOk, s1)
  else (.espErrInvalidCrc, s)

/-- Model of `dht11_read(dht11, connection_timeout)` (dht11.c lines 84-203).
Raise the line, wait 200 ms, run the handshake retry loop, then — exactly as
the C does — test `timeout_counter >= connection_timeout` (ignoring whether
the loop exited through the `break`), and otherwise decode 40 bits and run
the checksum/commit tail. -/
def dht11_read (line : ℕ → Bool) (connectionTimeout : ℕ) (s : Dht11) :
    EspErr × Dht11 :=
  let s0 := delayUs (setLevel s true) 200000
  let h := handshakeGo line connectionTimeout 0 s0
  if connectionTimeout ≤ h.2.1 then (.espErrTimeout, pinIdle h.2.2)
  else
    let rd := readDataGo line 5 [] h.2.2
    match rd.1 with
    | none => (.espErrTimeout, rd.2)
    | some data => dht11_commit data (pinIdle rd.2)

/-!  Simulated line traces (test scaffolding, not part of the source model).
A trace is a list of levels starting at a given offset, packed into a natural
number so that lookups reduce fast; before the offset and past the end the
line reads the out-of-range default `false`. -/

/-- Pack a list of levels into a natural number, least-significant bit first. -/
def bitsToMask : List Bool → ℕ
  | [] => 0
  | b :: rest => (if b then 1 else 0) + 2 * bitsToMask rest

/-- A line trace reading bit `t - off` of `mask`. -/
def lineOfMask (mask off : ℕ) : ℕ → Bool := fun t => Nat.testBit mask (t - off)

/-- One transmitted bit as seen on the line: a 1 µs low separator, then a high
pulse of 40 µs (bit 1) or 20 µs (bit 0). -/
def pulseChunk (b : Bool) : List Bool :=
  false :: List.replicate (if b then 40 else 20) true

/-- The 8 bits of a byte, most significant first. -/
def byteBits (b : ℕ) : List Bool := (List.range 8).map fun j => b.testBit (7 - j)

/-- Level list for a full frame: sensor ack low, ack high, then the 40 bit
slots. -/
def frameLevels (bytes : List ℕ) : List Bool :=
  false :: true :: bytes.flatMap fun b => (byteBits b).flatMap pulseChunk

/-!  The concrete masks below are the packed level lists of full simulated
exchanges whose first handshake attempt succeeds: the sensor answer starts at
t = 218040 (200 ms stabilization + 18 ms start signal + 40 µs release), so
each mask is bit-addressed from that offset.  Each numeral was obtained by
evaluating `bitsToMask (frameLevels bytes)` for the frame named in its
comment; they are kept as literals so that kernel reduction of a lookup is a
single (GMP-backed) shift.  The decode theorems below re-certify the
encodings: the driver provably recovers exactly the intended frame bytes
from each mask. -/

/-- Packed levels of `frameLevels [50, 0, 23, 5, 78]` (valid checksum 78). -/
def goodMask : ℕ :=
  54331915254487010623553546286327260046793743262729252977752087844845817632890218155232763725735755889140632864934789466225424163154325368741657916847556427656099283288386898000649542022556523199986741215593753026528148149823229523867377314152332225727352986221740286053269921964564208175461942279175554125073079353188766912723550202

/-- Packed levels of `frameLevels [50, 0, 23, 5, 79]` (corrupted checksum). -/
def badCrcMask : ℕ :=
  56971169535833645163250574513219012822226389215601424379355138259481509395208798751103731247361197128033815948940187015298821151970153421103386458072125524604633113944843511355494867729411942945578545089136353463000657007307194500001261943582183532373313496398256832343469525248189058319260016895888458594264214147315265404141765560107002

/-- Packed levels of `frameLevels [200, 0, 0, 0, 200]` (valid checksum, but
the decoded humidity 200.0 breaks the physical bound). -/
def rangeMask : ℕ :=
  38981237457879777033438406545490536057027630203575157554905875111289752849272716163339908131247042774323898778424406433501190685532814663460058662544288029913393568895053089981717211244554362691496692290702799634552534767325338296254608054135742027648406251334891931884146903095198307319802

/-- Frame 50 / 0 / 23 / 5 with valid checksum 78. -/
def goodLine : ℕ → Bool := lineOfMask goodMask 218040

/-- Same frame with corrupted checksum byte 79. -/
def badCrcLine : ℕ → Bool := lineOfMask badCrcMask 218040

/-- Checksum-valid frame 200 / 0 / 0 / 0 / 200 whose humidity breaks the
physical bound. -/
def rangeLine : ℕ → Bool := lineOfMask rangeMask 218040

/-- Level list for the tolerated-falling-edge scenario: byte 0 transmits
0x01, but after the high pulse of its last bit (bit index 7 of byte 0, the
8th bit of the frame) the line stays high for 190 µs, so the end-of-slot
wait (70 µs) times out there; the remaining bytes are 0 / 0 / 0 and
checksum 1. -/
def c3Levels : List Bool :=
  false :: true ::
    ((List.replicate 7 (pulseChunk false)).flatten
      ++ (false :: List.replicate 190 true)
      ++ (List.replicate 7 (pulseChunk false)).flatten
      ++ ((byteBits 0).flatMap pulseChunk)
      ++ ((byteBits 0).flatMap pulseChunk)
      ++ ((byteBits 1).flatMap pulseChunk))

/-- Packed levels of `c3Levels`. -/
def c3Mask : ℕ :=
  21944496275164775526717615029552833584726935353243508500313614339216024707637104387959807198046819611520262794800718100230637775288868454368911037564117448137950867202627195985421701393659688019844960246566469599883895016244234693156519714295158954977715212008089549341817433874647036510338105129838837754

/-- The tolerated-falling-edge line, first attempt succeeding at t = 218040. -/
def c3Line : ℕ → Bool := lineOfMask c3Mask 218040

/-- Initial machine state used by the concrete runs. -/
def s0 : Dht11 := ⟨0, .outputOD, true, 0, 0⟩

/-- A lone high pulse of exactly 35 µs (after a 1 µs low), for the threshold
boundary test. -/
def line35 : ℕ → Bool := lineOfMask (bitsToMask (false :: List.replicate 35 true)) 0

/-- A lone high pulse of exactly 36 µs (after a 1 µs low). -/
def line36 : ℕ → Bool := lineOfMask (bitsToMask (false :: List.replicate 36 true)) 0

/-- Relation: `s'` differs from `s` at most in the clock — GPIO configuration
and both reading fields are untouched. -/
def OnlyClock (s s' : Dht11) : Prop :=
  s'.mode = s.mode ∧ s'.level = s.level ∧
    s'.humidity = s.humidity ∧ s'.temperature = s.temperature

/-- Relation: `s'` has the same committed Reading as `s`. -/
def KeepsReading (s s' : Dht11) : Prop :=
  s'.humidity = s.humidity ∧ s'.temperature = s.temperature

/-!  Basic preservation lemmas: which parts of the state each primitive and
each loop can change. -/

lemma onlyClock_refl (s : Dht11) : OnlyClock s s := ⟨rfl, rfl, rfl, rfl⟩

lemma onlyClock_trans {s1 s2 s3 : Dht11} (h : OnlyClock s1 s2)
    (h' : OnlyClock s2 s3) : OnlyClock s1 s3 := by
  obtain ⟨a, b, c, d⟩ := h
  obtain ⟨a', b', c', d'⟩ := h'
  exact ⟨a'.trans a, b'.trans b, c'.trans c, d'.trans d⟩

lemma onlyClock_keepsReading {s s' : Dht11} (h : OnlyClock s s') :
    KeepsReading s s' := ⟨h.2.2.1, h.2.2.2⟩

lemma keepsReading_refl (s : Dht11) : KeepsReading s s := ⟨rfl, rfl⟩

lemma keepsReading_trans {s1 s2 s3 : Dht11} (h : KeepsReading s1 s2)
    (h' : KeepsReading s2 s3) : KeepsReading s1 s3 :=
  ⟨h'.1.trans h.1, h'.2.trans h.2⟩

lemma onlyClock_delayUs (s : Dht11) (n : ℕ) : OnlyClock s (delayUs s n) := by
  simp [OnlyClock, delayUs]

lemma keepsReading_pinIdle (s : Dht11) : KeepsReading s (pinIdle s) := by
  simp [KeepsReading, pinIdle, setLevel, setDir]

lemma keepsReading_retryReset (s : Dht11) : KeepsReading s (retryReset s) := by
  simp [KeepsReading, retryReset, delayUs, setLevel, setDir]

lemma keepsReading_hold_low (s : Dht11) (n : ℕ) :
    KeepsReading s (hold_low s n) := by
  simp [KeepsReading, hold_low, delayUs, setLevel]

lemma waitGo_onlyClock (line : ℕ → Bool) (st : Bool) :
    ∀ (r c : ℕ) (s : Dht11), OnlyClock s (waitGo line st r c s).2 := by
  intro r
  induction r with
  | zero =>
    intro c s
    by_cases h : line s.t = st <;> simp [waitGo, h, onlyClock_refl]
  | succ r ih =>
    intro c s
    by_cases h : line s.t = st
    · simp [waitGo, h, onlyClock_refl]
    · simp only [waitGo, h, if_false]
      exact onlyClock_trans (onlyClock_delayUs s 1) (ih (c + 1) (delayUs s 1))

lemma wait_for_state_onlyClock (line : ℕ → Bool) (st : Bool) (timeout : ℕ)
    (s : Dht11) : OnlyClock s (wait_for_state line st timeout s).2 :=
  waitGo_onlyClock line st timeout 0 s

lemma measureGo_onlyClock (line : ℕ → Bool) :
    ∀ (r h : ℕ) (s : Dht11), OnlyClock s (measureGo line r h s).2 := by
  intro r
  induction r with
  | zero => intro h s; simp [measureGo, onlyClock_refl]
  | succ r ih =>
    intro hc s
    by_cases h : line s.t = true
    · simp only [measureGo, h, if_true]
      exact onlyClock_trans (onlyClock_delayUs s 1) (ih (hc + 1) (delayUs s 1))
    · simp [measureGo, h, onlyClock_refl]

lemma bitStep_keepsReading (line : ℕ → Bool) (j byte : ℕ) (s : Dht11) :
    KeepsReading s (bitStep line j byte s).2 := by
  simp only [bitStep]
  rcases hw1 : (wait_for_state line true 70 s).1 with _ | w1
  · simp only [hw1]
    exact keepsReading_trans
      (onlyClock_keepsReading (wait_for_state_onlyClock line true 70 s))
      (keepsReading_pinIdle _)
  · simp only [hw1]
    have k1 : KeepsReading s (wait_for_state line true 70 s).2 :=
      onlyClock_keepsReading (wait_for_state_onlyClock line true 70 s)
    have k2 : KeepsReading s (measureHigh line (wait_for_state line true 70 s).2).2 :=
      keepsReading_trans k1
        (onlyClock_keepsReading (measureGo_onlyClock line 100 0 _))
    have k3 : KeepsReading s
        (wait_for_state line false 70 (measureHigh line (wait_for_state line true 70 s).2).2).2 :=
      keepsReading_trans k2
        (onlyClock_keepsReading (wait_for_state_onlyClock line false 70 _))
    rcases hw2 : (wait_for_state line false 70
        (measureHigh line (wait_for_state line true 70 s).2).2).1 with _ | w2
    · simp only [hw2]
      by_cases hj : j < 7
      · simpa [hj] using keepsReading_trans k3 (keepsReading_pinIdle _)
      · simpa [hj] using k3
    · simpa only [hw2] using k3

lemma readByteGo_keepsReading (line : ℕ → Bool) :
    ∀ (r j byte : ℕ) (s : Dht11), KeepsReading s (readByteGo line r j byte s).2 := by
  intro r
  induction r with
  | zero => intro j byte s; simp [readByteGo, keepsReading_refl]
  | succ r ih =>
    intro j byte s
    simp only [readByteGo]
    rcases hb : (bitStep line j byte s).1 with _ | v
    · simpa only [hb] using bitStep_keepsReading line j byte s
    · simp only [hb]
      exact keepsReading_trans (bitStep_keepsReading line j byte s)
        (ih (j + 1) v (bitStep line j byte s).2)

lemma readDataGo_keepsReading (line : ℕ → Bool) :
    ∀ (r : ℕ) (acc : List ℕ) (s : Dht11), KeepsReading s (readDataGo line r acc s).2 := by
  intro r
  induction r with
  | zero => intro acc s; simp [readDataGo, keepsReading_refl]
  | succ r ih =>
    intro acc s
    simp only [readDataGo]
    rcases hb : (readByteGo line 8 0 0 s).1 with _ | v
    · simpa only [hb] using readByteGo_keepsReading line 8 0 0 s
    · simp only [hb]
      exact keepsReading_trans (readByteGo_keepsReading line 8 0 0 s)
        (ih (acc ++ [v]) (readByteGo line 8 0 0 s).2)

lemma handshakeGo_keepsReading (line : ℕ → Bool) :
    ∀ (r c : ℕ) (s : Dht11), KeepsReading s (handshakeGo line r c s).2.2 := by
  intro r
  induction r with
  | zero => intro c s; simp [handshakeGo, keepsReading_refl]
  | succ r ih =>
    intro c s
    simp only [handshakeGo]
    have kIn : ∀ u : Dht11, KeepsReading s u → KeepsReading s (retryReset u) :=
      fun u hu => keepsReading_trans hu (keepsReading_retryReset u)
    have k1 : KeepsReading s
        (wait_for_state line false 100 (setDir (hold_low s 18000) .inputMode)).2 := by
      refine keepsReading_trans ?_
        (onlyClock_keepsReading (wait_for_state_onlyClock line false 100 _))
      simpa [KeepsReading, setDir] using keepsReading_hold_low s 18000
    split
    · exact keepsReading_trans (kIn _ k1) (ih _ _)
    · have k2 : KeepsReading s (wait_for_state line true 100
          (wait_for_state line false 100 (setDir (hold_low s 18000) .inputMode)).2).2 :=
        keepsReading_trans k1
          (onlyClock_keepsReading (wait_for_state_onlyClock line true 100 _))
      split
      · exact keepsReading_trans (kIn _ k2) (ih _ _)
      · have k3 : KeepsReading s (wait_for_state line false 100
            (wait_for_state line true 100
              (wait_for_state line false 100 (setDir (hold_low s 18000) .inputMode)).2).2).2 :=
          keepsReading_trans k2
            (onlyClock_keepsReading (wait_for_state_onlyClock line false 100 _))
        split
        · exact keepsReading_trans (kIn _ k3) (ih _ _)
        · exact k3

/-!  Determinism lemmas: the result code and all clock values produced by the
driver depend on the machine state only through the clock, never through the
stored Reading or the GPIO configuration. -/

lemma waitGo_det (line : ℕ → Bool) (st : Bool) :
    ∀ (r c : ℕ) (s1 s2 : Dht11), s1.t = s2.t →
      (waitGo line st r c s1).1 = (waitGo line st r c s2).1 ∧
        (waitGo line st r c s1).2.t = (waitGo line st r c s2).2.t := by
  intro r
  induction r with
  | zero =>
    intro c s1 s2 ht
    by_cases h : line s1.t = st <;> simp [waitGo, ht ▸ h, ht, h]
  | succ r ih =>
    intro c s1 s2 ht
    by_cases h : line s1.t = st
    · simp [waitGo, ht ▸ h, ht, h]
    · have h2 : ¬ line s2.t = st := ht ▸ h
      simp only [waitGo, h, h2, if_false]
      exact ih (c + 1) (delayUs s1 1) (delayUs s2 1) (by simp [delayUs, ht])

lemma measureGo_det (line : ℕ → Bool) :
    ∀ (r hc : ℕ) (s1 s2 : Dht11), s1.t = s2.t →
      (measureGo line r hc s1).1 = (measureGo line r hc s2).1 ∧
        (measureGo line r hc s1).2.t = (measureGo line r hc s2).2.t := by
  intro r
  induction r with
  | zero => intro hc s1 s2 ht; simp [measureGo, ht]
  | succ r ih =>
    intro hc s1 s2 ht
    by_cases h : line s1.t = true
    · have h2 : line s2.t = true := ht ▸ h
      simp only [measureGo, h, h2, if_true]
      exact ih (hc + 1) (delayUs s1 1) (delayUs s2 1) (by simp [delayUs, ht])
    · have h2 : ¬ line s2.t = true := ht ▸ h
      simp [measureGo, h, h2, ht]

lemma bitStep_det (line : ℕ → Bool) (j byte : ℕ) (s1 s2 : Dht11)
    (ht : s1.t = s2.t) :
    (bitStep line j byte s1).1 = (bitStep line j byte s2).1 ∧
      (bitStep line j byte s1).2.t = (bitStep line j byte s2).2.t := by
  obtain ⟨e1, e2⟩ := waitGo_det line true 70 0 s1 s2 ht
  simp only [bitStep, wait_for_state] at *
  rcases hw1 : (waitGo line true 70 0 s2).1 with _ | w1
  · simp [hw1, hw1 ▸ e1, pinIdle, setLevel, setDir, e2]
  · obtain ⟨m1, m2⟩ := measureGo_det line 100 0 _ _ e2
    obtain ⟨f1, f2⟩ := waitGo_det line false 70 0 _ _ m2
    simp only [hw1, hw1 ▸ e1, measureHigh, m1]
    rcases hw2 : (waitGo line false 70 0 (measureGo line 100 0 (waitGo line true 70 0 s2).2).2).1
        with _ | w2
    · by_cases hj : j < 7 <;>
        simp [hw2, hw2 ▸ f1, hj, pinIdle, setLevel, setDir, f2]
    · simp [hw2, hw2 ▸ f1, f2]

lemma readByteGo_det (line : ℕ → Bool) :
    ∀ (r j byte : ℕ) (s1 s2 : Dht11), s1.t = s2.t →
      (readByteGo line r j byte s1).1 = (readByteGo line r j byte s2).1 ∧
        (readByteGo line r j byte s1).2.t = (readByteGo line r j byte s2).2.t := by
  intro r
  induction r with
  | zero => intro j byte s1 s2 ht; simp [readByteGo, ht]
  | succ r ih =>
    intro j byte s1 s2 ht
    obtain ⟨e1, e2⟩ := bitStep_det line j byte s1 s2 ht
    simp only [readByteGo]
    rcases hb : (bitStep line j byte s2).1 with _ | v
    · simp [hb, hb ▸ e1, e2]
    · simp only [hb, hb ▸ e1]
      exact ih (j + 1) v _ _ e2

lemma readDataGo_det (line : ℕ → Bool) :
    ∀ (r : ℕ) (acc : List ℕ) (s1 s2 : Dht11), s1.t = s2.t →
      (readDataGo line r acc s1).1 = (readDataGo line r acc s2).1 ∧
        (readDataGo line r acc s1).2.t = (readDataGo line r acc s2).2.t := by
  intro r
  induction r with
  | zero => intro acc s1 s2 ht; simp [readDataGo, ht]
  | succ r ih =>
    intro acc s1 s2 ht
    obtain ⟨e1, e2⟩ := readByteGo_det line 8 0 0 s1 s2 ht
    simp only [readDataGo]
    rcases hb : (readByteGo line 8 0 0 s2).1 with _ | v
    · simp [hb, hb ▸ e1, e2]
    · simp only [hb, hb ▸ e1]
      exact ih (acc ++ [v]) _ _ e2

/-!  Projection helpers for the state primitives. -/

@[simp] lemma delayUs_t (s : Dht11) (n : ℕ) : (delayUs s n).t = s.t + n := rfl

@[simp] lemma setLevel_t (s : Dht11) (l : Bool) : (setLevel s l).t = s.t := rfl

@[simp] lemma setDir_t (s : Dht11) (m : GpioMode) : (setDir s m).t = s.t := rfl

@[simp] lemma pinIdle_t (s : Dht11) : (pinIdle s).t = s.t := rfl

@[simp] lemma pinIdle_mode (s : Dht11) : (pinIdle s).mode = .outputOD := rfl

@[simp] lemma pinIdle_level (s : Dht11) : (pinIdle s).level = true := rfl

@[simp] lemma retryReset_t (s : Dht11) : (retryReset s).t = s.t + 200000 := rfl

@[simp] lemma retryReset_mode (s : Dht11) : (retryReset s).mode = .outputOD := rfl

@[simp] lemma retryReset_level (s : Dht11) : (retryReset s).level = true := rfl

@[simp] lemma hold_low_t (s : Dht11) (n : ℕ) :
    (hold_low s n).t = s.t + n + 40 := rfl

lemma handshakeGo_det (line : ℕ → Bool) :
    ∀ (r c : ℕ) (s1 s2 : Dht11), s1.t = s2.t →
      (handshakeGo line r c s1).1 = (handshakeGo line r c s2).1 ∧
        (handshakeGo line r c s1).2.1 = (handshakeGo line r c s2).2.1 ∧
        (handshakeGo line r c s1).2.2.t = (handshakeGo line r c s2).2.2.t := by
  intro r
  induction r with
  | zero => intro c s1 s2 ht; simp [handshakeGo, ht]
  | succ r ih =>
    intro c s1 s2 ht
    have hd : (setDir (hold_low s1 18000) GpioMode.inputMode).t
        = (setDir (hold_low s2 18000) GpioMode.inputMode).t := by simp [ht]
    obtain ⟨e1, e2⟩ := waitGo_det line false 100 0 _ _ hd
    simp only [handshakeGo, wait_for_state]
    by_cases hw1 : (waitGo line false 100 0 (setDir (hold_low s2 18000) GpioMode.inputMode)).1 = none
    · rw [if_pos (e1.trans hw1), if_pos hw1]
      exact ih (c + 1) _ _ (by simp [e2])
    · rw [if_neg (e1 ▸ hw1), if_neg hw1]
      obtain ⟨f1, f2⟩ := waitGo_det line true 100 0 _ _ e2
      by_cases hw2 : (waitGo line true 100 0
          (waitGo line false 100 0 (setDir (hold_low s2 18000) GpioMode.inputMode)).2).1 = none
      · rw [if_pos (f1.trans hw2), if_pos hw2]
        exact ih (c + 1) _ _ (by simp [f2])
      · rw [if_neg (f1 ▸ hw2), if_neg hw2]
        obtain ⟨g1, g2⟩ := waitGo_det line false 100 0 _ _ f2
        by_cases hw3 : (waitGo line false 100 0 (waitGo line true 100 0
            (waitGo line false 100 0 (setDir (hold_low s2 18000) GpioMode.inputMode)).2).2).1 = none
        · rw [if_pos (g1.trans hw3), if_pos hw3]
          exact ih (c + 1) _ _ (by simp [g2])
        · rw [if_neg (g1 ▸ hw3), if_neg hw3]
          exact ⟨rfl, rfl, g2⟩

/-!  Elapsed-time bounds: every busy-wait loop advances the clock by at most
its fuel, so the whole read is bounded by an explicit function of the
attempt budget. -/

lemma waitGo_t_le (line : ℕ → Bool) (st : Bool) :
    ∀ (r c : ℕ) (s : Dht11), (waitGo line st r c s).2.t ≤ s.t + r := by
  intro r
  induction r with
  | zero =>
    intro c s
    by_cases h : line s.t = st <;> simp [waitGo, h]
  | succ r ih =>
    intro c s
    by_cases h : line s.t = st
    · simp [waitGo, h]
    · simp only [waitGo, h, if_false]
      have := ih (c + 1) (delayUs s 1)
      simp only [delayUs_t] at this
      omega

lemma measureGo_t_le (line : ℕ → Bool) :
    ∀ (r hc : ℕ) (s : Dht11), (measureGo line r hc s).2.t ≤ s.t + r := by
  intro r
  induction r with
  | zero => intro hc s; simp [measureGo]
  | succ r ih =>
    intro hc s
    by_cases h : line s.t = true
    · simp only [measureGo, h, if_true]
      have := ih (hc + 1) (delayUs s 1)
      simp only [delayUs_t] at this
      omega
    · simp [measureGo, h]

lemma bitStep_t_le (line : ℕ → Bool) (j byte : ℕ) (s : Dht11) :
    (bitStep line j byte s).2.t ≤ s.t + 240 := by
  simp only [bitStep, wait_for_state]
  have h1 := waitGo_t_le line true 70 0 s
  rcases hw1 : (waitGo line true 70 0 s).1 with _ | w1
  · simp only [hw1, pinIdle_t]; omega
  · simp only [hw1, measureHigh]
    have h2 := measureGo_t_le line 100 0 (waitGo line true 70 0 s).2
    have h3 := waitGo_t_le line false 70 0 (measureGo line 100 0 (waitGo line true 70 0 s).2).2
    rcases hw2 : (waitGo line false 70 0 (measureGo line 100 0 (waitGo line true 70 0 s).2).2).1
        with _ | w2
    · by_cases hj : j < 7 <;> simp only [hw2, hj, if_true, if_false, pinIdle_t] <;> omega
    · simp only [hw2]; omega

lemma readByteGo_t_le (line : ℕ → Bool) :
    ∀ (r j byte : ℕ) (s : Dht11), (readByteGo line r j byte s).2.t ≤ s.t + r * 240 := by
  intro r
  induction r with
  | zero => intro j byte s; simp [readByteGo]
  | succ r ih =>
    intro j byte s
    simp only [readByteGo]
    have h1 := bitStep_t_le line j byte s
    rcases hb : (bitStep line j byte s).1 with _ | v
    · simp only [hb]; omega
    · simp only [hb]
      have := ih (j + 1) v (bitStep line j byte s).2
      omega

lemma readDataGo_t_le (line : ℕ → Bool) :
    ∀ (r : ℕ) (acc : List ℕ) (s : Dht11), (readDataGo line r acc s).2.t ≤ s.t + r * 1920 := by
  intro r
  induction r with
  | zero => intro acc s; simp [readDataGo]
  | succ r ih =>
    intro acc s
    simp only [readDataGo]
    have h1 := readByteGo_t_le line 8 0 0 s
    rcases hb : (readByteGo line 8 0 0 s).1 with _ | v
    · simp only [hb]; omega
    · simp only [hb]
      have := ih (acc ++ [v]) (readByteGo line 8 0 0 s).2
      omega

lemma handshakeGo_t_le (line : ℕ → Bool) :
    ∀ (r c : ℕ) (s : Dht11), (handshakeGo line r c s).2.2.t ≤ s.t + r * 218340 := by
  intro r
  induction r with
  | zero => intro c s; simp [handshakeGo]
  | succ r ih =>
    intro c s
    simp only [handshakeGo, wait_for_state]
    have h1 := waitGo_t_le line false 100 0 (setDir (hold_low s 18000) GpioMode.inputMode)
    simp only [setDir_t, hold_low_t] at h1
    by_cases hw1 : (waitGo line false 100 0 (setDir (hold_low s 18000) GpioMode.inputMode)).1 = none
    · rw [if_pos hw1]
      have := ih (c + 1) (retryReset (waitGo line false 100 0
        (setDir (hold_low s 18000) GpioMode.inputMode)).2)
      simp only [retryReset_t] at this
      omega
    · rw [if_neg hw1]
      have h2 := waitGo_t_le line true 100 0
        (waitGo line false 100 0 (setDir (hold_low s 18000) GpioMode.inputMode)).2
      by_cases hw2 : (waitGo line true 100 0
          (waitGo line false 100 0 (setDir (hold_low s 18000) GpioMode.inputMode)).2).1 = none
      · rw [if_pos hw2]
        have := ih (c + 1) (retryReset (waitGo line true 100 0 (waitGo line false 100 0
          (setDir (hold_low s 18000) GpioMode.inputMode)).2).2)
        simp only [retryReset_t] at this
        omega
      · rw [if_neg hw2]
        have h3 := waitGo_t_le line false 100 0 (waitGo line true 100 0
          (waitGo line false 100 0 (setDir (hold_low s 18000) GpioMode.inputMode)).2).2
        by_cases hw3 : (waitGo line false 100 0 (waitGo line true 100 0
            (waitGo line false 100 0 (setDir (hold_low s 18000) GpioMode.inputMode)).2).2).1 = none
        · rw [if_pos hw3]
          have := ih (c + 1) (retryReset (waitGo line false 100 0 (waitGo line true 100 0
            (waitGo line false 100 0 (setDir (hold_low s 18000) GpioMode.inputMode)).2).2).2)
          simp only [retryReset_t] at this
          omega
        · rw [if_neg hw3]
          show (waitGo line false 100 0 (waitGo line true 100 0 (waitGo line false 100 0
            (setDir (hold_low s 18000) GpioMode.inputMode)).2).2).2.t ≤ s.t + (r + 1) * 218340
          omega

lemma commit_t (data : List ℕ) (s : Dht11) : (dht11_commit data s).2.t = s.t := by
  simp only [dht11_commit]
  split
  · split <;> rfl
  · rfl

lemma commit_pin (data : List ℕ) (s : Dht11) :
    (dht11_commit data s).2.mode = s.mode ∧ (dht11_commit data s).2.level = s.level := by
  simp only [dht11_commit]
  split
  · split <;> exact ⟨rfl, rfl⟩
  · exact ⟨rfl, rfl⟩

/-!  Pin-cleanup lemmas: each fatal bit-decode exit restores the idle pin. -/

lemma bitStep_none_pin (line : ℕ → Bool) (j byte : ℕ) (s : Dht11)
    (h : (bitStep line j byte s).1 = none) :
    (bitStep line j byte s).2.mode = .outputOD ∧ (bitStep line j byte s).2.level = true := by
  simp only [bitStep, wait_for_state] at *
  rcases hw1 : (waitGo line true 70 0 s).1 with _ | w1
  · simp [hw1]
  · simp only [hw1, measureHigh] at *
    rcases hw2 : (waitGo line false 70 0 (measureGo line 100 0 (waitGo line true 70 0 s).2).2).1
        with _ | w2
    · by_cases hj : j < 7
      · simp [hw2, hj]
      · simp [hw2, hj] at h
    · simp [hw2] at h

lemma readByteGo_none_pin (line : ℕ → Bool) :
    ∀ (r j byte : ℕ) (s : Dht11), (readByteGo line r j byte s).1 = none →
      (readByteGo line r j byte s).2.mode = .outputOD ∧
        (readByteGo line r j byte s).2.level = true := by
  intro r
  induction r with
  | zero => intro j byte s h; simp [readByteGo] at h
  | succ r ih =>
    intro j byte s h
    simp only [readByteGo] at *
    rcases hb : (bitStep line j byte s).1 with _ | v
    · simpa only [hb] using bitStep_none_pin line j byte s hb
    · simp only [hb] at *
      exact ih (j + 1) v _ h

lemma readDataGo_none_pin (line : ℕ → Bool) :
    ∀ (r : ℕ) (acc : List ℕ) (s : Dht11), (readDataGo line r acc s).1 = none →
      (readDataGo line r acc s).2.mode = .outputOD ∧
        (readDataGo line r acc s).2.level = true := by
  intro r
  induction r with
  | zero => intro acc s h; simp [readDataGo] at h
  | succ r ih =>
    intro acc s h
    simp only [readDataGo] at *
    rcases hb : (readByteGo line 8 0 0 s).1 with _ | v
    · simpa only [hb] using readByteGo_none_pin line 8 0 0 s hb
    · simp only [hb] at *
      exact ih (acc ++ [v]) _ h

/-!  Exact behaviour on a line that never leaves the high level: every
handshake attempt times out in its first phase after exactly
18040 + 100 + 200000 = 218140 µs. -/

lemma waitGo_never (line : ℕ → Bool) (hline : ∀ t, line t = true) :
    ∀ (r c : ℕ) (s : Dht11), waitGo line false r c s = (none, { s with t := s.t + r }) := by
  intro r
  induction r with
  | zero => intro c s; simp [waitGo, hline]
  | succ r ih =>
    intro c s
    simp only [waitGo, hline, Bool.true_eq_false, if_false]
    rw [ih (c + 1) (delayUs s 1)]
    simp only [delayUs]
    have h : s.t + 1 + r = s.t + (r + 1) := by omega
    rw [h]

lemma handshakeGo_step_never (line : ℕ → Bool) (hline : ∀ t, line t = true)
    (r c : ℕ) (s : Dht11) :
    handshakeGo line (r + 1) c s =
      handshakeGo line r (c + 1) ⟨s.t + 218140, .outputOD, true, s.humidity, s.temperature⟩ := by
  have harg : retryReset (waitGo line false 100 0
      (setDir (hold_low s 18000) GpioMode.inputMode)).2
      = ⟨s.t + 218140, .outputOD, true, s.humidity, s.temperature⟩ := by
    rw [waitGo_never line hline]
    show Dht11.mk (s.t + 18000 + 40 + 100 + 200000) .outputOD true
      s.humidity s.temperature = _
    exact congrArg (fun n => Dht11.mk n GpioMode.outputOD true s.humidity s.temperature)
      (by omega : s.t + 18000 + 40 + 100 + 200000 = s.t + 218140)
  have hstep : handshakeGo line (r + 1) c s = handshakeGo line r (c + 1)
      (retryReset (waitGo line false 100 0
        (setDir (hold_low s 18000) GpioMode.inputMode)).2) := by
    simp only [handshakeGo, wait_for_state]
    rw [waitGo_never line hline]
    rw [if_pos rfl]
  rw [hstep, harg]

lemma handshakeGo_never (line : ℕ → Bool) (hline : ∀ t, line t = true) :
    ∀ (r c : ℕ) (s : Dht11),
      handshakeGo line r c s =
        (false, c + r,
          if r = 0 then s
          else ⟨s.t + r * 218140, .outputOD, true, s.humidity, s.temperature⟩) := by
  intro r
  induction r with
  | zero => intro c s; simp [handshakeGo]
  | succ r ih =>
    intro c s
    rw [handshakeGo_step_never line hline, ih]
    rcases Nat.eq_zero_or_pos r with hr | hr
    · subst hr; simp
    · rw [if_neg (by omega), if_neg (by omega)]
      simp only [Prod.mk.injEq, Dht11.mk.injEq, eq_self_iff_true, and_true, true_and]
      omega

/-!  Path-selection helpers for `dht11_read` on concrete runs. -/

lemma dht11_read_timeout_eval (line : ℕ → Bool) (ct : ℕ) (s : Dht11)
    {res : Bool × ℕ × Dht11}
    (h : handshakeGo line ct 0 (delayUs (setLevel s true) 200000) = res)
    (hc : ct ≤ res.2.1) :
    dht11_read line ct s = (.espErrTimeout, pinIdle res.2.2) := by
  simp only [dht11_read, h, if_pos hc]

lemma dht11_read_success_eval (line : ℕ → Bool) (ct : ℕ) (s : Dht11)
    {res : Bool × ℕ × Dht11} {data : List ℕ} {s2 : Dht11}
    (h : handshakeGo line ct 0 (delayUs (setLevel s true) 200000) = res)
    (hc : res.2.1 < ct)
    (hr : readDataGo line 5 [] res.2.2 = (some data, s2)) :
    dht11_read line ct s = dht11_commit data (pinIdle s2) := by
  simp only [dht11_read, h, hr, if_neg (not_le.mpr hc)]

lemma readDataGo_cons (line : ℕ → Bool) (r : ℕ) (acc : List ℕ) (s : Dht11)
    {byte : ℕ} {s1 : Dht11} (h : readByteGo line 8 0 0 s = (some byte, s1)) :
    readDataGo line (r + 1) acc s = readDataGo line r (acc ++ [byte]) s1 := by
  simp only [readDataGo, h]

@[simp] lemma delayUs_humidity (s : Dht11) (n : ℕ) :
    (delayUs s n).humidity = s.humidity := rfl

@[simp] lemma delayUs_temperature (s : Dht11) (n : ℕ) :
    (delayUs s n).temperature = s.temperature := rfl

@[simp] lemma setLevel_humidity (s : Dht11) (l : Bool) :
    (setLevel s l).humidity = s.humidity := rfl

@[simp] lemma setLevel_temperature (s : Dht11) (l : Bool) :
    (setLevel s l).temperature = s.temperature := rfl

@[simp] lemma setDir_humidity (s : Dht11) (m : GpioMode) :
    (setDir s m).humidity = s.humidity := rfl

@[simp] lemma setDir_temperature (s : Dht11) (m : GpioMode) :
    (setDir s m).temperature = s.temperature := rfl

@[simp] lemma pinIdle_humidity (s : Dht11) : (pinIdle s).humidity = s.humidity := rfl

@[simp] lemma pinIdle_temperature (s : Dht11) :
    (pinIdle s).temperature = s.temperature := rfl

/-!  Concrete runs, evaluated in kernel-checkable chunks (one handshake or one
byte of the frame at a time, so each `decide` stays shallow). -/

lemma good_handshake : handshakeGo goodLine 2 0 (delayUs (setLevel s0 true) 200000)
    = (true, 1, ⟨218042, .inputMode, true, 0, 0⟩) := by decide

set_option maxRecDepth 8000 in
lemma good_byte0 : readByteGo goodLine 8 0 0 ⟨218042, .inputMode, true, 0, 0⟩
    = (some 50, ⟨218270, .inputMode, true, 0, 0⟩) := by decide

set_option maxRecDepth 8000 in
lemma good_byte1 : readByteGo goodLine 8 0 0 ⟨218270, .inputMode, true, 0, 0⟩
    = (some 0, ⟨218438, .inputMode, true, 0, 0⟩) := by decide

set_option maxRecDepth 8000 in
lemma good_byte2 : readByteGo goodLine 8 0 0 ⟨218438, .inputMode, true, 0, 0⟩
    = (some 23, ⟨218686, .inputMode, true, 0, 0⟩) := by decide

set_option maxRecDepth 8000 in
lemma good_byte3 : readByteGo goodLine 8 0 0 ⟨218686, .inputMode, true, 0, 0⟩
    = (some 5, ⟨218894, .inputMode, true, 0, 0⟩) := by decide

set_option maxRecDepth 8000 in
lemma good_byte4 : readByteGo goodLine 8 0 0 ⟨218894, .inputMode, true, 0, 0⟩
    = (some 78, ⟨219142, .inputMode, true, 0, 0⟩) := by decide

lemma good_bytes : readDataGo goodLine 5 [] ⟨218042, .inputMode, true, 0, 0⟩
    = (some [50, 0, 23, 5, 78], ⟨219142, .inputMode, true, 0, 0⟩) := by
  rw [readDataGo_cons _ _ _ _ good_byte0, readDataGo_cons _ _ _ _ good_byte1,
    readDataGo_cons _ _ _ _ good_byte2, readDataGo_cons _ _ _ _ good_byte3,
    readDataGo_cons _ _ _ _ good_byte4]
  rfl

lemma bad_handshake : handshakeGo badCrcLine 2 0
    (delayUs (setLevel (⟨0, .outputOD, true, 11, 22⟩ : Dht11) true) 200000)
    = (true, 1, ⟨218042, .inputMode, true, 11, 22⟩) := by decide

set_option maxRecDepth 8000 in
lemma bad_byte0 : readByteGo badCrcLine 8 0 0 ⟨218042, .inputMode, true, 11, 22⟩
    = (some 50, ⟨218270, .inputMode, true, 11, 22⟩) := by decide

set_option maxRecDepth 8000 in
lemma bad_byte1 : readByteGo badCrcLine 8 0 0 ⟨218270, .inputMode, true, 11, 22⟩
    = (some 0, ⟨218438, .inputMode, true, 11, 22⟩) := by decide

set_option maxRecDepth 8000 in
lemma bad_byte2 : readByteGo badCrcLine 8 0 0 ⟨218438, .inputMode, true, 11, 22⟩
    = (some 23, ⟨218686, .inputMode, true, 11, 22⟩) := by decide

set_option maxRecDepth 8000 in
lemma bad_byte3 : readByteGo badCrcLine 8 0 0 ⟨218686, .inputMode, true, 11, 22⟩
    = (some 5, ⟨218894, .inputMode, true, 11, 22⟩) := by decide

set_option maxRecDepth 8000 in
lemma bad_byte4 : readByteGo badCrcLine 8 0 0 ⟨218894, .inputMode, true, 11, 22⟩
    = (some 79, ⟨219162, .inputMode, true, 11, 22⟩) := by decide

lemma bad_bytes : readDataGo badCrcLine 5 [] ⟨218042, .inputMode, true, 11, 22⟩
    = (some [50, 0, 23, 5, 79], ⟨219162, .inputMode, true, 11, 22⟩) := by
  rw [readDataGo_cons _ _ _ _ bad_byte0, readDataGo_cons _ _ _ _ bad_byte1,
    readDataGo_cons _ _ _ _ bad_byte2, readDataGo_cons _ _ _ _ bad_byte3,
    readDataGo_cons _ _ _ _ bad_byte4]
  rfl

lemma range_handshake : handshakeGo rangeLine 2 0 (delayUs (setLevel s0 true) 200000)
    = (true, 1, ⟨218042, .inputMode, true, 0, 0⟩) := by decide

set_option maxRecDepth 8000 in
lemma range_byte0 : readByteGo rangeLine 8 0 0 ⟨218042, .inputMode, true, 0, 0⟩
    = (some 200, ⟨218270, .inputMode, true, 0, 0⟩) := by decide

set_option maxRecDepth 8000 in
lemma range_byte1 : readByteGo rangeLine 8 0 0 ⟨218270, .inputMode, true, 0, 0⟩
    = (some 0, ⟨218438, .inputMode, true, 0, 0⟩) := by decide

set_option maxRecDepth 8000 in
lemma range_byte2 : readByteGo rangeLine 8 0 0 ⟨218438, .inputMode, true, 0, 0⟩
    = (some 0, ⟨218606, .inputMode, true, 0, 0⟩) := by decide

set_option maxRecDepth 8000 in
lemma range_byte3 : readByteGo rangeLine 8 0 0 ⟨218606, .inputMode, true, 0, 0⟩
    = (some 0, ⟨218774, .inputMode, true, 0, 0⟩) := by decide

set_option maxRecDepth 8000 in
lemma range_byte4 : readByteGo rangeLine 8 0 0 ⟨218774, .inputMode, true, 0, 0⟩
    = (some 200, ⟨219002, .inputMode, true, 0, 0⟩) := by decide

lemma range_bytes : readDataGo rangeLine 5 [] ⟨218042, .inputMode, true, 0, 0⟩
    = (some [200, 0, 0, 0, 200], ⟨219002, .inputMode, true, 0, 0⟩) := by
  rw [readDataGo_cons _ _ _ _ range_byte0, readDataGo_cons _ _ _ _ range_byte1,
    readDataGo_cons _ _ _ _ range_byte2, readDataGo_cons _ _ _ _ range_byte3,
    readDataGo_cons _ _ _ _ range_byte4]
  rfl

lemma c3_handshake : handshakeGo c3Line 2 0 (delayUs (setLevel s0 true) 200000)
    = (true, 1, ⟨218042, .inputMode, true, 0, 0⟩) := by decide

set_option maxRecDepth 8000 in
lemma c3_byte0 : readByteGo c3Line 8 0 0 ⟨218042, .inputMode, true, 0, 0⟩
    = (some 1, ⟨218360, .inputMode, true, 0, 0⟩) := by decide

set_option maxRecDepth 8000 in
lemma c3_byte1 : readByteGo c3Line 8 0 0 ⟨218360, .inputMode, true, 0, 0⟩
    = (some 0, ⟨218527, .inputMode, true, 0, 0⟩) := by decide

set_option maxRecDepth 8000 in
lemma c3_byte2 : readByteGo c3Line 8 0 0 ⟨218527, .inputMode, true, 0, 0⟩
    = (some 0, ⟨218695, .inputMode, true, 0, 0⟩) := by decide

set_option maxRecDepth 8000 in
lemma c3_byte3 : readByteGo c3Line 8 0 0 ⟨218695, .inputMode, true, 0, 0⟩
    = (some 0, ⟨218863, .inputMode, true, 0, 0⟩) := by decide

set_option maxRecDepth 8000 in
lemma c3_byte4 : readByteGo c3Line 8 0 0 ⟨218863, .inputMode, true, 0, 0⟩
    = (some 1, ⟨219051, .inputMode, true, 0, 0⟩) := by decide

lemma c3_bytes : readDataGo c3Line 5 [] ⟨218042, .inputMode, true, 0, 0⟩
    = (some [1, 0, 0, 0, 1], ⟨219051, .inputMode, true, 0, 0⟩) := by
  rw [readDataGo_cons _ _ _ _ c3_byte0, readDataGo_cons _ _ _ _ c3_byte1,
    readDataGo_cons _ _ _ _ c3_byte2, readDataGo_cons _ _ _ _ c3_byte3,
    readDataGo_cons _ _ _ _ c3_byte4]
  rfl

lemma commit_good_eval : dht11_commit [50, 0, 23, 5, 78]
    (pinIdle ⟨219142, .inputMode, true, 0, 0⟩)
    = (.espOk, ⟨219142, .outputOD, true, 50, 47 / 2⟩) := by
  simp only [dht11_commit, List.getD_cons_zero, List.getD_cons_succ,
    pinIdle, setLevel, setDir]
  norm_num

lemma good_read : dht11_read goodLine 2 s0
    = (.espOk, ⟨219142, .outputOD, true, 50, 47 / 2⟩) := by
  rw [dht11_read_success_eval goodLine 2 s0 good_handshake (by decide) good_bytes]
  exact commit_good_eval

lemma commit_bad_eval : dht11_commit [50, 0, 23, 5, 79]
    (pinIdle ⟨219162, .inputMode, true, 11, 22⟩)
    = (.espErrInvalidCrc, ⟨219162, .outputOD, true, 11, 22⟩) := by decide

lemma bad_read : dht11_read badCrcLine 2 ⟨0, .outputOD, true, 11, 22⟩
    = (.espErrInvalidCrc, ⟨219162, .outputOD, true, 11, 22⟩) := by
  rw [dht11_read_success_eval badCrcLine 2 _ bad_handshake (by decide) bad_bytes]
  exact commit_bad_eval

lemma commit_range_eval : dht11_commit [200, 0, 0, 0, 200]
    (pinIdle ⟨219002, .inputMode, true, 0, 0⟩)
    = (.espErrInvalidResponse, ⟨219002, .outputOD, true, 200, 0⟩) := by
  simp only [dht11_commit, List.getD_cons_zero, List.getD_cons_succ,
    pinIdle, setLevel, setDir]
  norm_num

lemma range_read : dht11_read rangeLine 2 s0
    = (.espErrInvalidResponse, ⟨219002, .outputOD, true, 200, 0⟩) := by
  rw [dht11_read_success_eval rangeLine 2 s0 range_handshake (by decide) range_bytes]
  exact commit_range_eval

lemma commit_c3_eval : dht11_commit [1, 0, 0, 0, 1]
    (pinIdle ⟨219051, .inputMode, true, 0, 0⟩)
    = (.espOk, ⟨219051, .outputOD, true, 1, 0⟩) := by
  simp only [dht11_commit, List.getD_cons_zero, List.getD_cons_succ,
    pinIdle, setLevel, setDir]
  norm_num

lemma c3_read : dht11_read c3Line 2 s0
    = (.espOk, ⟨219051, .outputOD, true, 1, 0⟩) := by
  rw [dht11_read_success_eval c3Line 2 s0 c3_handshake (by decide) c3_bytes]
  exact commit_c3_eval

/-!  The claims. -/

/-- Claim C6: the bit-decode threshold is a strict greater-than at 35 µs.  On
a simulated pulse measured as exactly 35 µs the bit decodes as 0 (and the
accumulated byte stays 0); measured as 36 µs it decodes as 1, assembled
most-significant-bit first: at bit index 0 it contributes 2^7 = 128, at bit
index 3 it contributes 2^4 = 16. -/
theorem c6_threshold :
    measureHigh line35 ⟨1, .inputMode, true, 0, 0⟩ = (35, ⟨36, .inputMode, true, 0, 0⟩)
  ∧ bitStep line35 0 0 ⟨0, .inputMode, true, 0, 0⟩ = (some 0, ⟨36, .inputMode, true, 0, 0⟩)
  ∧ measureHigh line36 ⟨1, .inputMode, true, 0, 0⟩ = (36, ⟨37, .inputMode, true, 0, 0⟩)
  ∧ bitStep line36 0 0 ⟨0, .inputMode, true, 0, 0⟩ = (some 128, ⟨37, .inputMode, true, 0, 0⟩)
  ∧ bitStep line36 3 0 ⟨0, .inputMode, true, 0, 0⟩ = (some 16, ⟨37, .inputMode, true, 0, 0⟩) :=
  ⟨by decide, by decide, by decide, by decide, by decide⟩

/-- Claim C2 (code bug): when the three handshake transitions all succeed on
the final attempt (`timeout_counter = connection_timeout`), the code's
`timeout_counter >= connection_timeout` test at dht11.c line 137 still fires
and `dht11_read` returns the connection-timeout failure without decoding any
bit.  With attempt budget 1 on a line whose first handshake succeeds (the
`goodLine` exchange), the handshake loop exits through its `break` with
counter 1, yet the read returns `ESP_ERR_TIMEOUT`; the same line with budget
2 decodes fine, showing the exchange itself was complete. -/
theorem c2_code_bug_eval :
    handshakeGo goodLine 1 0 (delayUs (setLevel s0 true) 200000)
      = (true, 1, ⟨218042, .inputMode, true, 0, 0⟩)
  ∧ dht11_read goodLine 1 s0 = (.espErrTimeout, ⟨218042, .outputOD, true, 0, 0⟩)
  ∧ (dht11_read goodLine 2 s0).1 = .espOk := by
  refine ⟨by decide, by decide, ?_⟩
  rw [good_read]

/-- Claim C7: on a simulated line that never leaves the high level (so the
first handshake transition, to low, never happens), `dht11_read` performs
exactly `connection_timeout` handshake attempts — the final `timeout_counter`
equals the budget — each costing 18040 µs of start signal, a full 100 µs
phase-1 window, and the 200 ms stabilization wait (218140 µs per attempt,
after the initial 200 ms), and then returns the connection-timeout failure
with the pin restored to open-drain output, high. -/
theorem c7_connection_timeout : ∀ (line : ℕ → Bool), (∀ t, line t = true) →
    (∀ (ct : ℕ) (s : Dht11),
      dht11_read line ct s = (.espErrTimeout,
        ⟨s.t + 200000 + ct * 218140, .outputOD, true, s.humidity, s.temperature⟩))
  ∧ (∀ (r c : ℕ) (s : Dht11), (handshakeGo line r c s).2.1 = c + r) := by
  intro line hline
  constructor
  · intro ct s
    have h := handshakeGo_never line hline ct 0 (delayUs (setLevel s true) 200000)
    rw [dht11_read_timeout_eval line ct s h (by simp)]
    rcases Nat.eq_zero_or_pos ct with h0 | hpos
    · subst h0
      simp [pinIdle, setLevel, setDir, delayUs]
    · rw [if_neg (by omega)]
      simp [pinIdle, setLevel, setDir, delayUs]
  · intro r c s
    rw [handshakeGo_never line hline]

/-- Claim C10: every busy-wait loop in the driver is bounded, witnessed by
explicit elapsed-time bounds: `wait_for_state` advances the clock by at most
its timeout, and a whole `dht11_read` by at most 200000 + 9600 µs plus
218340 µs per allowed handshake attempt (the definitions themselves are
total Lean functions, so termination holds for every line trace, timeout and
attempt budget). -/
theorem c10_termination_bound :
    (∀ (line : ℕ → Bool) (st : Bool) (timeout : ℕ) (s : Dht11),
      (wait_for_state line st timeout s).2.t ≤ s.t + timeout)
  ∧ (∀ (line : ℕ → Bool) (ct : ℕ) (s : Dht11),
      (dht11_read line ct s).2.t ≤ s.t + 209600 + ct * 218340) := by
  constructor
  · intro line st timeout s
    exact waitGo_t_le line st timeout 0 s
  · intro line ct s
    simp only [dht11_read]
    have hh := handshakeGo_t_le line ct 0 (delayUs (setLevel s true) 200000)
    simp only [delayUs_t, setLevel_t] at hh
    by_cases hct : ct ≤ (handshakeGo line ct 0 (delayUs (setLevel s true) 200000)).2.1
    · simp only [if_pos hct, pinIdle_t]
      omega
    · simp only [if_neg hct]
      have hr := readDataGo_t_le line 5 []
        (handshakeGo line ct 0 (delayUs (setLevel s true) 200000)).2.2
      rcases hx : (readDataGo line 5 []
          (handshakeGo line ct 0 (delayUs (setLevel s true) 200000)).2.2).1 with _ | data
      · simp only [hx]
        omega
      · simp only [hx]
        rw [commit_t]
        simp only [pinIdle_t]
        omega

/-- Claim C8: on every exit path of `dht11_read` — success, connection
timeout, bit timeout, checksum failure or out-of-range failure — the final
GPIO configuration is open-drain output driven high. -/
theorem c8_pin_idle : ∀ (line : ℕ → Bool) (ct : ℕ) (s : Dht11),
    (dht11_read line ct s).2.mode = .outputOD ∧ (dht11_read line ct s).2.level = true := by
  intro line ct s
  simp only [dht11_read]
  by_cases hct : ct ≤ (handshakeGo line ct 0 (delayUs (setLevel s true) 200000)).2.1
  · simp [hct]
  · simp only [if_neg hct]
    rcases hx : (readDataGo line 5 []
        (handshakeGo line ct 0 (delayUs (setLevel s true) 200000)).2.2).1 with _ | data
    · simp only [hx]
      exact readDataGo_none_pin line 5 [] _ hx
    · simp only [hx]
      have h := commit_pin data (pinIdle (readDataGo line 5 []
        (handshakeGo line ct 0 (delayUs (setLevel s true) 200000)).2.2).2)
      rw [h.1, h.2]
      simp

/-- Claim C1 counterexample: the claim says a read failing with the
response-out-of-range error leaves the stored Reading unchanged, but on the
checksum-valid frame 200/0/0/0/200 (humidity 200.0 > 100.0) `dht11_read`
returns `ESP_ERR_INVALID_RESPONSE` *and* has already overwritten the stored
humidity from 0 to 200: dht11.c lines 188-189 store the decoded values
before the range check at line 192. -/
theorem c1_counterexample :
    (dht11_read rangeLine 2 s0).1 = .espErrInvalidResponse
  ∧ s0.humidity = 0
  ∧ (dht11_read rangeLine 2 s0).2.humidity = 200 := by
  rw [range_read]
  exact ⟨rfl, rfl, rfl⟩

/-- Claim C1 as amended: a read that fails with the connection/bit timeout
error or with the checksum error leaves both stored Reading fields exactly
as they were; only the response-out-of-range failure commits the (out of
range) decoded values before reporting. -/
theorem c1_amended : ∀ (line : ℕ → Bool) (ct : ℕ) (s : Dht11),
    ((dht11_read line ct s).1 = .espErrTimeout ∨
      (dht11_read line ct s).1 = .espErrInvalidCrc) →
    (dht11_read line ct s).2.humidity = s.humidity ∧
      (dht11_read line ct s).2.temperature = s.temperature := by
  intro line ct s herr
  have k0 : KeepsReading s (delayUs (setLevel s true) 200000) := ⟨rfl, rfl⟩
  have k1 : KeepsReading s
      (handshakeGo line ct 0 (delayUs (setLevel s true) 200000)).2.2 :=
    keepsReading_trans k0 (handshakeGo_keepsReading line ct 0 _)
  simp only [dht11_read] at herr ⊢
  by_cases hct : ct ≤ (handshakeGo line ct 0 (delayUs (setLevel s true) 200000)).2.1
  · simp only [if_pos hct]
    exact keepsReading_trans k1 (keepsReading_pinIdle _)
  · simp only [if_neg hct] at herr ⊢
    have k2 : KeepsReading s (readDataGo line 5 []
        (handshakeGo line ct 0 (delayUs (setLevel s true) 200000)).2.2).2 :=
      keepsReading_trans k1 (readDataGo_keepsReading line 5 [] _)
    rcases hx : (readDataGo line 5 []
        (handshakeGo line ct 0 (delayUs (setLevel s true) 200000)).2.2).1 with _ | data
    · simp only [hx]
      exact k2
    · simp only [hx] at herr ⊢
      simp only [dht11_commit] at herr ⊢
      by_cases hcrc : (data.getD 0 0 + data.getD 1 0 + data.getD 2 0 + data.getD 3 0) % 256
          = data.getD 4 0
      · rw [if_pos hcrc] at herr
        rcases herr with herr | herr <;>
          · split at herr <;> simp at herr
      · rw [if_neg hcrc]
        exact keepsReading_trans k2 (keepsReading_pinIdle _)

set_option maxRecDepth 8000 in
/-- Claim C3 counterexample: the claim says the missing falling edge at the
end of a bit slot is tolerated only for the very last transmitted bit
(bit 40, byte 4 / bit 7), but the code's `j < 7` test tolerates it for the
last bit of *every* byte.  On `c3Line` the falling edge after the high pulse
of byte 0, bit 7 (the 8th bit of the frame) never comes: the end-of-slot
wait times out, `bitStep` at j = 7 still succeeds, and the whole read
completes with `ESP_OK`. -/
theorem c3_counterexample :
    (wait_for_state c3Line false 70 ⟨218290, .inputMode, true, 0, 0⟩).1 = none
  ∧ bitStep c3Line 7 0 ⟨218189, .inputMode, true, 0, 0⟩
      = (some 1, ⟨218360, .inputMode, true, 0, 0⟩)
  ∧ (dht11_read c3Line 2 s0).1 = .espOk := by
  refine ⟨by decide, by decide, ?_⟩
  rw [c3_read]

/-- Claim C3 as amended: during bit decoding a timeout while waiting for the
falling edge at the end of a bit slot is fatal exactly when the bit's index
within its byte is below 7 — i.e. it is tolerated for the last bit of every
byte (bit indices 8, 16, 24, 32 and 40 of the frame), not only for bit 40. -/
theorem c3_amended : ∀ (line : ℕ → Bool) (j byte : ℕ) (s : Dht11),
    (wait_for_state line true 70 s).1.isSome = true →
    (wait_for_state line false 70
      (measureHigh line (wait_for_state line true 70 s).2).2).1 = none →
    ((bitStep line j byte s).1 = none ↔ j < 7) := by
  intro line j byte s h1 h2
  simp only [bitStep]
  rcases hw : (wait_for_state line true 70 s).1 with _ | w
  · rw [hw] at h1
    simp at h1
  · simp only [hw, h2]
    by_cases hj : j < 7 <;> simp [hj]

/-- Claim C4 counterexample: the claim says every checksum-valid frame
delivered by a successful bit exchange decodes to a committed Reading with
`ESP_OK`, but the frame 200/0/0/0/200 (checksum 200 = (200+0+0+0) mod 256)
is decoded by a fully successful bit exchange and still fails: its humidity
200.0 exceeds the physical bound, so `dht11_read` returns
`ESP_ERR_INVALID_RESPONSE`, not success. -/
theorem c4_counterexample :
    (readDataGo rangeLine 5 [] ⟨218042, .inputMode, true, 0, 0⟩).1
      = some [200, 0, 0, 0, 200]
  ∧ (200 + 0 + 0 + 0) % 256 = 200
  ∧ (dht11_read rangeLine 2 s0).1 = .espErrInvalidResponse := by
  refine ⟨?_, by decide, ?_⟩
  · rw [range_bytes]
  · rw [range_read]

/-- Claim C4 as amended: every 5-byte frame whose fifth byte is the truncated
8-bit sum of the first four *and* whose decoded values respect the physical
bounds (humidity ≤ 100.0, i.e. 10·b0 + b1 ≤ 1000, and temperature ≤ 50.0,
i.e. 10·b2 + b3 ≤ 500) commits with humidity = b0 + b1/10 and
temperature = b2 + b3/10 and succeeds; in particular the end-to-end exchange
of frame [0x32, 0x00, 0x17, 0x05, 0x4E] yields ESP_OK with humidity 50.0 and
temperature 23.5. -/
theorem c4_amended :
    (∀ (b0 b1 b2 b3 : ℕ) (s : Dht11), 10 * b0 + b1 ≤ 1000 → 10 * b2 + b3 ≤ 500 →
      dht11_commit [b0, b1, b2, b3, (b0 + b1 + b2 + b3) % 256] s
        = (.espOk, ⟨s.t, s.mode, s.level,
            (b0 : ℚ) + (b1 : ℚ) / 10, (b2 : ℚ) + (b3 : ℚ) / 10⟩))
  ∧ dht11_read goodLine 2 s0 = (.espOk, ⟨219142, .outputOD, true, 50, 47 / 2⟩) := by
  constructor
  · intro b0 b1 b2 b3 s h1 h2
    have hhum : (b0 : ℚ) + (b1 : ℚ) / 10 ≤ 100 := by
      have h1q : ((10 * b0 + b1 : ℕ) : ℚ) ≤ 1000 := by exact_mod_cast h1
      push_cast at h1q
      linarith
    have htem : (b2 : ℚ) + (b3 : ℚ) / 10 ≤ 50 := by
      have h2q : ((10 * b2 + b3 : ℕ) : ℚ) ≤ 500 := by exact_mod_cast h2
      push_cast at h2q
      linarith
    simp only [dht11_commit, List.getD_cons_zero, List.getD_cons_succ, if_true]
    rw [if_neg (by push_neg; exact ⟨hhum, htem⟩)]
  · exact good_read

/-- Claim C5: a frame whose fifth byte differs from the truncated 8-bit sum
of the first four is rejected with the checksum-invalid error and the stored
Reading is untouched — both at the commit step for every such frame, and end
to end for the exchange of [0x32, 0x00, 0x17, 0x05, 0x4F] starting from a
Reading of 11.0 / 22.0. -/
theorem c5_checksum_invalid :
    (∀ (data : List ℕ) (s : Dht11),
      (data.getD 0 0 + data.getD 1 0 + data.getD 2 0 + data.getD 3 0) % 256
          ≠ data.getD 4 0 →
      dht11_commit data s = (.espErrInvalidCrc, s))
  ∧ dht11_read badCrcLine 2 ⟨0, .outputOD, true, 11, 22⟩
      = (.espErrInvalidCrc, ⟨219162, .outputOD, true, 11, 22⟩) := by
  constructor
  · intro data s h
    simp only [dht11_commit, if_neg h]
  · exact bad_read

lemma commit_fst_det (data : List ℕ) (s1 s2 : Dht11) :
    (dht11_commit data s1).1 = (dht11_commit data s2).1 := by
  simp only [dht11_commit]
  by_cases hcrc : (data.getD 0 0 + data.getD 1 0 + data.getD 2 0 + data.getD 3 0) % 256
      = data.getD 4 0
  · simp only [if_pos hcrc]
    by_cases hr : 100 < (data.getD 0 0 : ℚ) + (data.getD 1 0 : ℚ) / 10 ∨
        50 < (data.getD 2 0 : ℚ) + (data.getD 3 0 : ℚ) / 10
    · rw [if_pos hr, if_pos hr]
    · rw [if_neg hr, if_neg hr]
  · simp only [if_neg hcrc]

lemma commit_fields_of_crc (data : List ℕ) (s : Dht11)
    (hcrc : (data.getD 0 0 + data.getD 1 0 + data.getD 2 0 + data.getD 3 0) % 256
      = data.getD 4 0) :
    (dht11_commit data s).2.humidity
        = (data.getD 0 0 : ℚ) + (data.getD 1 0 : ℚ) / 10 ∧
      (dht11_commit data s).2.temperature
        = (data.getD 2 0 : ℚ) + (data.getD 3 0 : ℚ) / 10 := by
  simp only [dht11_commit, if_pos hcrc]
  split <;> exact ⟨rfl, rfl⟩

/-- Claim C9: `dht11_read` is deterministic in the simulated line trace:
runs started at the same clock value produce the same result code whatever
the previously stored Reading was, and when the result is success the two
committed Readings are identical (equal humidity and equal temperature). -/
theorem c9_deterministic : ∀ (line : ℕ → Bool) (ct : ℕ) (s1 s2 : Dht11), s1.t = s2.t →
    (dht11_read line ct s1).1 = (dht11_read line ct s2).1
  ∧ ((dht11_read line ct s1).1 = .espOk →
      (dht11_read line ct s1).2.humidity = (dht11_read line ct s2).2.humidity ∧
      (dht11_read line ct s1).2.temperature = (dht11_read line ct s2).2.temperature) := by
  intro line ct s1 s2 ht
  have h0 : (delayUs (setLevel s1 true) 200000).t
      = (delayUs (setLevel s2 true) 200000).t := by simp [ht]
  obtain ⟨hb, hc, hts⟩ := handshakeGo_det line ct 0 _ _ h0
  simp only [dht11_read]
  rw [hc]
  by_cases hcase : ct ≤ (handshakeGo line ct 0 (delayUs (setLevel s2 true) 200000)).2.1
  · simp [hcase]
  · simp only [if_neg hcase]
    obtain ⟨hd1, hd2⟩ := readDataGo_det line 5 [] _ _ hts
    rcases hr : (readDataGo line 5 []
        (handshakeGo line ct 0 (delayUs (setLevel s2 true) 200000)).2.2).1 with _ | data
    · rw [hr] at hd1
      simp [hd1, hr]
    · rw [hr] at hd1
      simp only [hd1, hr]
      refine ⟨commit_fst_det data _ _, fun hok => ?_⟩
      by_cases hcrc : (data.getD 0 0 + data.getD 1 0 + data.getD 2 0 + data.getD 3 0) % 256
          = data.getD 4 0
      · obtain ⟨f1, f2⟩ := commit_fields_of_crc data (pinIdle (readDataGo line 5 []
          (handshakeGo line ct 0 (delayUs (setLevel s1 true) 200000)).2.2).2) hcrc
        obtain ⟨g1, g2⟩ := commit_fields_of_crc data (pinIdle (readDataGo line 5 []
          (handshakeGo line ct 0 (delayUs (setLevel s2 true) 200000)).2.2).2) hcrc
        exact ⟨f1.trans g1.symm, f2.trans g2.symm⟩
      · exfalso
        simp only [dht11_commit, if_neg hcrc] at hok
        exact EspErr.noConfusion hok

/-- Witness for the amended C1 at a concrete input: on the always-high line
with attempt budget 1 the read fails with the timeout error and the stored
Reading 7.0 / 9.0 is returned unchanged. -/
theorem c1_amended_witness :
    (dht11_read (fun _ => true) 1 ⟨5, .outputOD, true, 7, 9⟩).2.humidity
        = (⟨5, .outputOD, true, 7, 9⟩ : Dht11).humidity ∧
      (dht11_read (fun _ => true) 1 ⟨5, .outputOD, true, 7, 9⟩).2.temperature
        = (⟨5, .outputOD, true, 7, 9⟩ : Dht11).temperature :=
  c1_amended (fun _ => true) 1 ⟨5, .outputOD, true, 7, 9⟩ (Or.inl (by decide))

set_option maxRecDepth 8000 in
/-- Witness for the amended C3 at a concrete input: at bit index 7 of byte 0
on `c3Line` the rise is seen, the falling edge times out, and `bitStep` does
not fail (the iff instantiates to `… ↔ 7 < 7`). -/
theorem c3_amended_witness :
    (bitStep c3Line 7 0 ⟨218189, .inputMode, true, 0, 0⟩).1 = none ↔ 7 < 7 :=
  c3_amended c3Line 7 0 ⟨218189, .inputMode, true, 0, 0⟩ (by decide) (by decide)

/-- Witness for the amended C4 at the concrete frame bytes 50/0/23/5: commit
succeeds and stores humidity 50.0 and temperature 23.5. -/
theorem c4_amended_witness :
    dht11_commit [50, 0, 23, 5, (50 + 0 + 23 + 5) % 256]
        (⟨3, .inputOutputOD, false, 1, 2⟩ : Dht11)
      = (.espOk, ⟨(⟨3, .inputOutputOD, false, 1, 2⟩ : Dht11).t,
          (⟨3, .inputOutputOD, false, 1, 2⟩ : Dht11).mode,
          (⟨3, .inputOutputOD, false, 1, 2⟩ : Dht11).level,
          (50 : ℚ) + (0 : ℚ) / 10, (23 : ℚ) + (5 : ℚ) / 10⟩) :=
  c4_amended.1 50 0 23 5 ⟨3, .inputOutputOD, false, 1, 2⟩ (by decide) (by decide)

/-- Witness for C5 at a concrete corrupted frame: the fifth byte 79 differs
from the checksum 78, so commit reports the checksum error and returns the
state untouched. -/
theorem c5_witness :
    dht11_commit [50, 0, 23, 5, 79] (⟨0, .outputOD, true, 7, 8⟩ : Dht11)
      = (.espErrInvalidCrc, ⟨0, .outputOD, true, 7, 8⟩) :=
  c5_checksum_invalid.1 [50, 0, 23, 5, 79] ⟨0, .outputOD, true, 7, 8⟩ (by decide)

/-- Witness for C7 at a concrete input: the constantly-high line with attempt
budget 2 exhausts both attempts (200000 + 2·218140 µs) and returns the
timeout failure with the pin idle. -/
theorem c7_witness :
    dht11_read (fun _ => true) 2 ⟨4, .inputOutputOD, false, 6, 7⟩
      = (.espErrTimeout, ⟨4 + 200000 + 2 * 218140, .outputOD, true, 6, 7⟩) :=
  (c7_connection_timeout (fun _ => true) (fun _ => rfl)).1 2 ⟨4, .inputOutputOD, false, 6, 7⟩

/-- Witness for C9 at a concrete input: two reads of the `goodLine` exchange
from states with equal clocks but different stored Readings and GPIO
configurations produce the same result code, and on success the same
committed Reading. -/
theorem c9_witness :
    (dht11_read goodLine 2 s0).1
        = (dht11_read goodLine 2 ⟨0, .inputOutputOD, false, 99, 88⟩).1
  ∧ ((dht11_read goodLine 2 s0).1 = .espOk →
      (dht11_read goodLine 2 s0).2.humidity
          = (dht11_read goodLine 2 ⟨0, .inputOutputOD, false, 99, 88⟩).2.humidity ∧
        (dht11_read goodLine 2 s0).2.temperature
          = (dht11_read goodLine 2 ⟨0, .inputOutputOD, false, 99, 88⟩).2.temperature) :=
  c9_deterministic goodLine 2 s0 ⟨0, .inputOutputOD, false, 99, 88⟩ rfl
